import Mathlib

/-!
# Verification of the `ezmail` email client core (`src/ezmail/core.py`)

This file gives a shallow embedding of the two engines of the repository:

* the sending engine `EzSender` (`_build_body`, the plain-text derivation and
  the per-recipient delivery loop of `send`), and
* the reading engine `EzReader` (`connect`, `list_mailboxes`,
  `fetch_messages` with its search-criteria builder and per-message
  decomposition loop).

External effects are passed in explicitly:

* the filesystem is a predicate `onDisk : String → Bool` (`os.path.isfile`)
  together with a trace of the file paths the code opens for reading;
* `mimetypes.guess_type` is a function `mime : String → Option String`;
* `uuid4`-generated content ids are a generator `cidGen : Nat → String`
  indexed by how many ids were generated so far;
* the SMTP transport outcome for the `i`-th recipient is
  `attempt : Nat → String → Option String` (`none` = `sendmail` succeeded,
  `some e` = the per-recipient `try` block raised an exception with text `e`);
* the IMAP transport is given by `Except`-valued results for the
  constructor/login/select/search calls and an `Option`-valued per-message
  fetch (`none` = the fetch status was not OK, so the id is skipped).

Python-specific conventions kept by the embedding:

* Python `dict` assignment `failed[recipient] = e` is `dictInsert` on an
  association list (update in place if the key exists, else append);
* Python truthiness of optional strings (`if sender:`) treats both `None`
  and the empty string as absent, hence the `s = ""` guards;
* `ids[:limit]` for a possibly negative `limit` is `pySliceTo`;
* the regex `\s` character class is modelled by its ASCII part
  (space, tab, newline, carriage return, vertical tab, form feed);
* byte strings are modelled as `String`s; `get_payload(decode=True)` is the
  field `payload : Option String` of a part (`none` models a `None` payload,
  whose `.decode` call raises and is caught by the surrounding `try`).
-/

namespace Ezmail

/-! ## Python helpers -/

/-- Decidable equality for `Except`, so that concrete runs of the fallible
operations can be checked by `decide`. -/
instance {ε α : Type} [DecidableEq ε] [DecidableEq α] :
    DecidableEq (Except ε α)
  | .ok a, .ok b =>
    if h : a = b then isTrue (h ▸ rfl)
    else isFalse (fun he => h (Except.ok.inj he))
  | .ok _, .error _ => isFalse (fun h => Except.noConfusion h)
  | .error _, .ok _ => isFalse (fun h => Except.noConfusion h)
  | .error a, .error b =>
    if h : a = b then isTrue (h ▸ rfl)
    else isFalse (fun he => h (Except.error.inj he))

/-- Python `dict` assignment `m[k] = v` on an insertion-ordered association
list: an existing key is updated in place, a new key is appended. -/
def dictInsert (m : List (String × String)) (k v : String) :
    List (String × String) :=
  if m.any (fun p => p.1 = k) then
    m.map (fun p => if p.1 = k then (k, v) else p)
  else
    m ++ [(k, v)]

/-- Python `xs[:n]` for an `int` bound `n`: a nonnegative bound takes a
prefix, a negative bound drops `|n|` elements from the end (clamped at 0). -/
def pySliceTo {α : Type} (xs : List α) (n : Int) : List α :=
  if 0 ≤ n then xs.take n.toNat else xs.take (xs.length - n.natAbs)

/-- Python `needle in hay` on strings: substring containment. -/
def strContains (hay needle : String) : Bool :=
  (List.range (hay.data.length + 1)).any
    (fun i => needle.data.isPrefixOf (hay.data.drop i))

/-- `os.path.basename` with POSIX separators: the segment after the last
slash. -/
def basename (p : String) : String :=
  (p.splitOn "/").getLastD p

/-- The ASCII part of the regex character class `\s` (also the ASCII core of
`str.strip`'s whitespace set). -/
def isSpaceChar (c : Char) : Bool :=
  c = ' ' ∨ c = '\t' ∨ c = '\n' ∨ c = '\r' ∨ c = '\x0b' ∨ c = '\x0c'

/-- Both-ends whitespace trim on a character list (Python `str.strip()`). -/
def stripEnds (l : List Char) : List Char :=
  ((l.dropWhile isSpaceChar).reverse.dropWhile isSpaceChar).reverse

/-- Python `s.strip()`. -/
def pyStrip (s : String) : String :=
  String.mk (stripEnds s.data)

/-! ## Plain-text derivation (`re.sub` pipeline in `EzSender.send`,
`core.py` lines 275-279) -/

/-- Scanner for `re.sub(r"<[^>]+>", "", s)`.  The second argument is the
pending run: the characters consumed since an still-unclosed `<` (in order).
A `>` that arrives when the pending run is exactly `['<']` closes no tag
(the regex needs at least one character between the brackets), so both
characters are emitted verbatim; a `>` arriving after `<` plus at least one
non-`>` character completes a match and the whole run is dropped.  A run
left open at the end of input is emitted verbatim (the regex never matched
it). -/
def stripTagsGo : List Char → List Char → List Char
  | [], pend => pend
  | c :: cs, pend =>
    if pend = [] then
      if c = '<' then stripTagsGo cs ['<']
      else c :: stripTagsGo cs []
    else
      if c = '>' then
        if pend.length = 1 then pend ++ '>' :: stripTagsGo cs []
        else stripTagsGo cs []
      else stripTagsGo cs (pend ++ [c])

/-- `re.sub(r"<[^>]+>", "", s)` on the character list of `s`. -/
def stripTags (l : List Char) : List Char :=
  stripTagsGo l []

/-- `re.sub(r"\s+", " ", s)`: every maximal run of whitespace characters is
replaced by a single space.  A whitespace character followed by another
whitespace character is dropped (the run continues); the last character of a
run is emitted as `' '`. -/
def collapseWs : List Char → List Char
  | [] => []
  | [c] => if isSpaceChar c then [' '] else [c]
  | c :: d :: cs =>
    if isSpaceChar c then
      if isSpaceChar d then collapseWs (d :: cs)
      else ' ' :: collapseWs (d :: cs)
    else c :: collapseWs (d :: cs)

/-- The plain-text alternative derived from the unified HTML body inside
`EzSender.send` (`core.py` lines 275-279): strip `<...>` tag sequences,
collapse whitespace runs to single spaces, trim both ends, and substitute
the fixed placeholder when the result is empty. -/
def derivePlainText (html : String) : String :=
  let t := stripTags html.data
  let t := collapseWs t
  let t := stripEnds t
  if t = [] then "Content not available." else String.mk t

/-! ## `EzSender._build_body` (`core.py` lines 184-234) -/

/-- One entry of `EzSender.body`: either a string appended by `add_text`
(or `use_template`), or the image descriptor dict appended by `add_image`.
Optional strings use `none` for both Python `None` and the falsy empty
string (the code only tests them for truthiness). -/
inductive Block where
  | text (html : String)
  | image (path : String) (width height cid : Option String)
deriving DecidableEq

/-- An inline `MIMEImage` record produced by `_build_body`: its content id,
the subtype from the guessed MIME type, and the attached filename. -/
structure InlineImage where
  cid : String
  subtype : String
  filename : String
deriving DecidableEq

/-- Accumulator of `_build_body`: the HTML parts joined so far, the inline
image records, the trace of file paths opened for reading, and how many
content ids have been generated by `uuid4` so far. -/
structure BuildOut where
  html : String
  inlineImages : List InlineImage
  reads : List String
  genCount : Nat
deriving DecidableEq

/-- One iteration of the `for block in self.body` loop of `_build_body`.
A text block is appended to the HTML accumulator verbatim.  An image block
whose path is not on disk is skipped silently.  Otherwise: the content id is
the caller-supplied one, or a fresh generated token; when no caller id was
given, an `<img>` tag (with an inline style built from width/height) is
appended to the HTML; the file is opened (recorded in `reads`); and when the
guessed MIME type starts with `image/` an inline image record is emitted,
else the image is silently dropped from the inline set. -/
def buildStep (onDisk : String → Bool) (mime : String → Option String)
    (cidGen : Nat → String) (st : BuildOut) (b : Block) : BuildOut :=
  match b with
  | .text h => { st with html := st.html ++ h }
  | .image path width height cidOpt =>
    if onDisk path then
      let cid := match cidOpt with
        | some c => c
        | none => cidGen st.genCount
      let genCount := match cidOpt with
        | some _ => st.genCount
        | none => st.genCount + 1
      let style :=
        if width.isSome ∨ height.isSome then
          " style=\"" ++
            (match width with
              | some w => "width:" ++ w ++ ";"
              | none => "") ++
            (match height with
              | some h => "height:" ++ h ++ ";"
              | none => "") ++ "\""
        else ""
      let html := match cidOpt with
        | none =>
          st.html ++ "<br><img src=\"cid:" ++ cid ++ "\"" ++ style ++ "><br>"
        | some _ => st.html
      let reads := st.reads ++ [path]
      let inline := match mime path with
        | some m =>
          if m.startsWith "image/" then
            st.inlineImages ++ [⟨cid, (m.splitOn "/").getD 1 "", basename path⟩]
          else st.inlineImages
        | none => st.inlineImages
      { html := html, inlineImages := inline, reads := reads,
        genCount := genCount }
    else st

/-- `EzSender._build_body`: fold the block list from the empty accumulator,
producing the unified HTML string and the inline image records (the image
files are opened here, once, before the recipient loop of `send`). -/
def buildBody (onDisk : String → Bool) (mime : String → Option String)
    (cidGen : Nat → String) (blocks : List Block) : BuildOut :=
  blocks.foldl (buildStep onDisk mime cidGen) ⟨"", [], [], 0⟩

/-! ## `EzSender.send` delivery loop (`core.py` lines 256-322) -/

/-- Running state of the `for recipient in recipients` loop of `send`:
the `sent` list, the `failed` dict, the `emails_sent` counter, the number
of rate-limit pauses executed, and the trace of file paths opened for
reading so far (image files from `_build_body`, then attachment files,
re-opened inside every iteration). -/
structure SendAcc where
  sent : List String
  failed : List (String × String)
  emailsSent : Nat
  pauses : Nat
  reads : List String
deriving DecidableEq

/-- One iteration of the recipient loop.  The message assembly opens every
attachment path that is (still) on disk, in order; the transmission attempt
then either succeeds (append to `sent`, increment the counter, and pause
when a truthy `max_emails_per_hour` equals the new counter value) or raises
(record the error text under the recipient in the `failed` dict). -/
def sendStep (mph : Option Nat) (onDisk : String → Bool)
    (attachPaths : List String) (attempt : Nat → String → Option String)
    (i : Nat) (r : String) (st : SendAcc) : SendAcc :=
  let st := { st with reads := st.reads ++ attachPaths.filter onDisk }
  match attempt i r with
  | none =>
    let n := st.emailsSent + 1
    let p := match mph with
      | some m => if m ≠ 0 ∧ n = m then 1 else 0
      | none => 0
    { st with sent := st.sent ++ [r], emailsSent := n, pauses := st.pauses + p }
  | some e => { st with failed := dictInsert st.failed r e }

/-- The recipient loop of `send`, threading the iteration index for the
transmission oracle. -/
def sendLoop (mph : Option Nat) (onDisk : String → Bool)
    (attachPaths : List String) (attempt : Nat → String → Option String) :
    List String → Nat → SendAcc → SendAcc
  | [], _, st => st
  | r :: rs, i, st =>
    sendLoop mph onDisk attachPaths attempt rs (i + 1)
      (sendStep mph onDisk attachPaths attempt i r st)

/-- `EzSender.send` for a recipient list, given a successful SMTP
connection: build the shared body once (reading the image files), then run
the per-recipient loop from the empty result.  The per-recipient message
content itself is `derivePlainText`/`buildBody` output and does not affect
the delivery bookkeeping, which is what this function returns. -/
def send (onDisk : String → Bool) (mime : String → Option String)
    (cidGen : Nat → String) (blocks : List Block)
    (attachPaths : List String) (mph : Option Nat)
    (attempt : Nat → String → Option String)
    (recipients : List String) : SendAcc :=
  let b := buildBody onDisk mime cidGen blocks
  sendLoop mph onDisk attachPaths attempt recipients 0 ⟨[], [], 0, 0, b.reads⟩

/-! ## `EzReader.connect` (`core.py` lines 411-433) -/

/-- Result of `EzReader.connect`: the new value of `self.mail` (an opaque
connection, `Unit`, or `none` when no connection object is held), the text
of the raised `RuntimeError` if any, and the trace of IMAP client calls
attempted, in order (`"IMAP4_SSL"` for the constructor — a network call —
then `"login"` or `"authenticate"`). -/
structure ConnectResult where
  mail : Option Unit
  err : Option String
  trace : List String
deriving DecidableEq

/-- `EzReader.connect`.  `mail0` is the value of `self.mail` before the
call; `ssl` is the outcome of the `IMAP4_SSL` constructor, `login`/`auth`
the outcomes of `login`/`authenticate("XOAUTH2", ...)`.  Every exception
inside the `try` block — including the `ValueError` for an invalid auth
type, which is only reached after the constructor returned — is caught and
re-raised as a wrapped `RuntimeError`.  When the constructor itself raises,
the assignment `self.mail = ...` never executes, so `mail0` is kept. -/
def connect (mail0 : Option Unit) (authType : String)
    (ssl : Except String Unit) (login : Except String Unit)
    (auth : Except String Unit) : ConnectResult :=
  match ssl with
  | .error e =>
    ⟨mail0, some ("Failed to connect or authenticate to IMAP server: " ++ e),
      ["IMAP4_SSL"]⟩
  | .ok _ =>
    if authType = "password" then
      match login with
      | .ok _ => ⟨some (), none, ["IMAP4_SSL", "login"]⟩
      | .error e =>
        ⟨some (),
          some ("Failed to connect or authenticate to IMAP server: " ++ e),
          ["IMAP4_SSL", "login"]⟩
    else if authType = "oauth2" then
      match auth with
      | .ok _ => ⟨some (), none, ["IMAP4_SSL", "authenticate"]⟩
      | .error e =>
        ⟨some (),
          some ("Failed to connect or authenticate to IMAP server: " ++ e),
          ["IMAP4_SSL", "authenticate"]⟩
    else
      ⟨some (),
        some ("Failed to connect or authenticate to IMAP server: " ++
          "Invalid authentication type. Use 'password' or 'oauth2'."),
        ["IMAP4_SSL"]⟩

/-! ## `EzReader.list_mailboxes` (`core.py` lines 435-453) -/

/-- `EzReader.list_mailboxes`: fail fast when `self.mail` is unset; raise a
wrapped error when the `list()` call raises or its status is not OK; else
decode each mailbox line, split on `' "/" '` and keep the last piece. -/
def listMailboxes (mail : Option Unit)
    (listRes : Except String (String × List String)) :
    Except String (List String) :=
  match mail with
  | none => .error "Not connected to any IMAP server."
  | some _ =>
    match listRes with
    | .error e => .error ("Failed to list mailboxes: " ++ e)
    | .ok (status, boxes) =>
      if status ≠ "OK" then
        .error "Failed to list mailboxes: Unable to retrieve mailbox list."
      else
        .ok (boxes.map (fun b => (b.splitOn " \"/\" ").getLastD b))

/-! ## `EzReader.fetch_messages`: search criteria (`core.py` lines 510-526) -/

/-- One `if <filter>: criteria += <clause>` step of the criteria builder.
Python truthiness: `None` and the empty string both contribute nothing. -/
def addClause (c : String) (v : Option String)
    (clause : String → String) : String :=
  match v with
  | some s => if s = "" then c else c ++ clause s
  | none => c

/-- The IMAP search expression built by `fetch_messages` from its filter
arguments, by sequential concatenation in the source's fixed order. -/
def buildCriteria (status : String)
    (sender subject text body date since before : Option String) : String :=
  let c := "(" ++ status
  let c := addClause c sender (fun s => " FROM \"" ++ s ++ "\"")
  let c := addClause c subject (fun s => " SUBJECT \"" ++ s ++ "\"")
  let c := addClause c text (fun s => " TEXT \"" ++ s ++ "\"")
  let c := addClause c body (fun s => " BODY \"" ++ s ++ "\"")
  let c := addClause c date (fun s => " ON " ++ s)
  let c := addClause c since (fun s => " SINCE " ++ s)
  let c := addClause c before (fun s => " BEFORE " ++ s)
  c ++ ")"

/-- The clause a single filter contributes, as a (possibly empty) list:
the comparison shape for the Query Builder claim, following the spec's
"each present filter contributing exactly one clause, omitted filters
contributing nothing" (with the code's notion of present: truthy). -/
def clauseOf (v : Option String) (clause : String → String) : List String :=
  match v with
  | some s => if s = "" then [] else [clause s]
  | none => []

/-- The full clause list of a search expression, in the spec's fixed order
FROM, SUBJECT, TEXT, BODY, ON, SINCE, BEFORE. -/
def specClauses
    (sender subject text body date since before : Option String) :
    List String :=
  clauseOf sender (fun s => " FROM \"" ++ s ++ "\"") ++
  clauseOf subject (fun s => " SUBJECT \"" ++ s ++ "\"") ++
  clauseOf text (fun s => " TEXT \"" ++ s ++ "\"") ++
  clauseOf body (fun s => " BODY \"" ++ s ++ "\"") ++
  clauseOf date (fun s => " ON " ++ s) ++
  clauseOf since (fun s => " SINCE " ++ s) ++
  clauseOf before (fun s => " BEFORE " ++ s)

/-! ## `EzReader.fetch_messages`: message decomposition
(`core.py` lines 540-591) -/

/-- One leaf-or-container part of a fetched message, as the walk loop sees
it: the `is_multipart()` flag, `get_content_type()` (lowercase), the
lowercased `str(part.get("Content-Disposition", ""))`, `get_filename()`,
and the `get_payload(decode=True)` result (`none` models a `None` payload:
calling `.decode` on it raises, which the body branch catches with
`continue`). -/
structure Part where
  isMultipart : Bool
  contentType : String
  contentDisposition : String
  filename : Option String
  payload : Option String
deriving DecidableEq

/-- An entry of the `attachments` list of a fetched message. -/
structure AttachmentRec where
  filename : String
  contentType : String
  data : Option String
deriving DecidableEq

/-- The raw fetched message handed to the decomposition loop: the `From`
header, the already-decoded `Subject`, and the leaf/container parts in
`msg.walk()` document order. -/
structure RawMsg where
  sender : String
  subject : String
  parts : List Part
deriving DecidableEq

/-- The `EzMail` object built from one decomposed message. -/
structure EzMailRec where
  sender : String
  subject : String
  body : String
  attachments : List AttachmentRec
deriving DecidableEq

/-- Accumulator of the `for part in msg.walk()` loop: the current
`body_content` and the collected `attachments`. -/
structure DecompState where
  body : String
  attachments : List AttachmentRec
deriving DecidableEq

/-- The attachment half of one walk iteration: a part that declares a
filename is appended to the attachments with its content type and payload
(appended even when the payload is `None` — `get_payload` does not raise
for a leaf part). -/
def attachStep (st : DecompState) (p : Part) : DecompState :=
  match p.filename with
  | some fn =>
    { st with attachments := st.attachments ++ [⟨fn, p.contentType, p.payload⟩] }
  | none => st

/-- One iteration of the walk loop of `fetch_messages`: multipart
containers are skipped; a `text/plain` part whose disposition does not
contain `attachment` overwrites `body_content` with its decoded payload
(a decode failure `continue`s, skipping the attachment check of that part
too); then any part declaring a filename is collected as an attachment. -/
def processPart (st : DecompState) (p : Part) : DecompState :=
  if p.isMultipart then st
  else
    if p.contentType = "text/plain" ∧
        strContains p.contentDisposition "attachment" = false then
      match p.payload with
      | none => st
      | some s => attachStep { st with body := s } p
    else attachStep st p

/-- Decomposition of one raw fetched message into an `EzMail`: walk all
parts from an empty body, then strip the final body. -/
def decomposeMsg (m : RawMsg) : EzMailRec :=
  let st := m.parts.foldl processPart ⟨"", []⟩
  ⟨m.sender, m.subject, pyStrip st.body, st.attachments⟩

/-- The decoded payloads of the parts that the body branch of the walk loop
accepts (non-multipart, `text/plain`, disposition without `attachment`,
payload decodable), in document order: the candidates for `body_content`. -/
def plainBodyCandidates (parts : List Part) : List String :=
  parts.filterMap (fun p =>
    if p.isMultipart = false ∧ p.contentType = "text/plain" ∧
        strContains p.contentDisposition "attachment" = false then
      p.payload
    else none)

/-! ## `EzReader.fetch_messages` (`core.py` lines 455-596) -/

/-- `ids[:limit]` guarded by Python truthiness of `limit`
(`None` and `0` both leave the id list untouched). -/
def applyLimit (ids : List Nat) (limit : Option Int) : List Nat :=
  match limit with
  | none => ids
  | some n => if n = 0 then ids else pySliceTo ids n

/-- `EzReader.fetch_messages`.  `mail` is `self.mail`; `selectRes` is the
outcome of `select(mailbox)` (its status tuple is ignored by the source,
only an exception matters); `searchRes` maps the criteria string to the
search status code and the id list; `fetchRaw` maps an id to the parsed
message, `none` when the fetch status is not OK or no data came back (the
id is skipped).  Exceptions inside the `try` block — including the inner
`RuntimeError` for a non-OK search status — are wrapped into the outer
`RuntimeError` naming the criteria. -/
def fetchMessages (mail : Option Unit) (selectRes : Except String Unit)
    (searchRes : String → Except String (String × List Nat))
    (fetchRaw : Nat → Option RawMsg) (limit : Option Int) (status : String)
    (sender subject text body date since before : Option String) :
    Except String (List EzMailRec) :=
  match mail with
  | none => .error "Not connected to any IMAP server."
  | some _ =>
    let criteria := buildCriteria status sender subject text body date since before
    match selectRes with
    | .error e =>
      .error ("Failed to fetch emails with the criteria " ++ criteria ++
        ": " ++ e)
    | .ok _ =>
      match searchRes criteria with
      | .error e =>
        .error ("Failed to fetch emails with the criteria " ++ criteria ++
          ": " ++ e)
      | .ok (statusCode, ids) =>
        if statusCode ≠ "OK" then
          .error ("Failed to fetch emails with the criteria " ++ criteria ++
            ": Failed to search emails with criteria: " ++ criteria)
        else
          .ok ((applyLimit ids limit).filterMap
            (fun i => (fetchRaw i).map decomposeMsg))

/-! ## Characterizations used by the theorems -/

/-- The recipients of a (sub)list starting at iteration index `i` whose
transmission attempt succeeds, in order: the expected final `sent` list. -/
def sentOf (attempt : Nat → String → Option String) :
    List String → Nat → List String
  | [], _ => []
  | r :: rs, i =>
    match attempt i r with
    | none => r :: sentOf attempt rs (i + 1)
    | some _ => sentOf attempt rs (i + 1)

/-- The recipients whose transmission attempt fails, paired with the error
text, in order: the expected final `failed` dict when no key repeats. -/
def failedOf (attempt : Nat → String → Option String) :
    List String → Nat → List (String × String)
  | [], _ => []
  | r :: rs, i =>
    match attempt i r with
    | none => failedOf attempt rs (i + 1)
    | some e => (r, e) :: failedOf attempt rs (i + 1)

/-- The number of rate-limit pauses a batch has executed once its success
counter is `c`: one iff a truthy threshold has been reached. -/
def pauseInd (mph : Option Nat) (c : Nat) : Nat :=
  match mph with
  | some m => if m ≠ 0 ∧ m ≤ c then 1 else 0
  | none => 0

/-- The delivery-result invariant of the spec for one `send` call: the two
buckets together are as large as the request, every requested recipient is
in exactly one bucket, and the buckets are disjoint. -/
def bucketsOk (res : SendAcc) (R : List String) : Prop :=
  res.sent.length + res.failed.length = R.length ∧
  (∀ r ∈ R, (r ∈ res.sent ∧ r ∉ res.failed.map Prod.fst) ∨
    (r ∉ res.sent ∧ r ∈ res.failed.map Prod.fst)) ∧
  (∀ r ∈ res.sent, r ∉ res.failed.map Prod.fst)

/-- No two adjacent characters of the list are both whitespace. -/
def noAdjacentWs : List Char → Bool
  | [] => true
  | [_] => true
  | a :: b :: t => (!(isSpaceChar a && isSpaceChar b)) && noAdjacentWs (b :: t)

/-! ## Delivery-loop lemmas -/

lemma dictInsert_of_not_mem (m : List (String × String)) (k v : String)
    (h : k ∉ m.map Prod.fst) : dictInsert m k v = m ++ [(k, v)] := by
  have hc : ¬(m.any (fun p => p.1 = k) = true) := by
    intro hc
    rcases List.any_eq_true.mp hc with ⟨p, hp, hpk⟩
    exact h (List.mem_map.mpr ⟨p, hp, by simpa using hpk⟩)
  simp [dictInsert, hc]

lemma sendStep_sent_none (mph : Option Nat) (onDisk : String → Bool)
    (att : List String) (attempt : Nat → String → Option String)
    (i : Nat) (r : String) (st : SendAcc) (h : attempt i r = none) :
    (sendStep mph onDisk att attempt i r st).sent = st.sent ++ [r] := by
  simp [sendStep, h]

lemma sendStep_failed_none (mph : Option Nat) (onDisk : String → Bool)
    (att : List String) (attempt : Nat → String → Option String)
    (i : Nat) (r : String) (st : SendAcc) (h : attempt i r = none) :
    (sendStep mph onDisk att attempt i r st).failed = st.failed := by
  simp [sendStep, h]

lemma sendStep_sent_some (mph : Option Nat) (onDisk : String → Bool)
    (att : List String) (attempt : Nat → String → Option String)
    (i : Nat) (r : String) (st : SendAcc) (e : String)
    (h : attempt i r = some e) :
    (sendStep mph onDisk att attempt i r st).sent = st.sent := by
  simp [sendStep, h]

lemma sendStep_failed_some (mph : Option Nat) (onDisk : String → Bool)
    (att : List String) (attempt : Nat → String → Option String)
    (i : Nat) (r : String) (st : SendAcc) (e : String)
    (h : attempt i r = some e) :
    (sendStep mph onDisk att attempt i r st).failed =
      dictInsert st.failed r e := by
  simp [sendStep, h]

/-- The delivery loop, on a duplicate-free recipient list whose addresses
are not yet keys of the failed dict, appends exactly the successful
recipients to `sent` and exactly the failed recipients (with their error
texts) to `failed`. -/
lemma sendLoop_char (mph : Option Nat) (onDisk : String → Bool)
    (att : List String) (attempt : Nat → String → Option String) :
    ∀ (rs : List String) (i : Nat) (st : SendAcc), rs.Nodup →
      (∀ r ∈ rs, r ∉ st.failed.map Prod.fst) →
      (sendLoop mph onDisk att attempt rs i st).sent =
        st.sent ++ sentOf attempt rs i ∧
      (sendLoop mph onDisk att attempt rs i st).failed =
        st.failed ++ failedOf attempt rs i := by
  intro rs
  induction rs with
  | nil => intro i st _ _; simp [sendLoop, sentOf, failedOf]
  | cons r rs ih =>
    intro i st hnd hfr
    rw [List.nodup_cons] at hnd
    obtain ⟨hrn, hnd'⟩ := hnd
    have hfr' : ∀ x ∈ rs, x ∉ st.failed.map Prod.fst :=
      fun x hx => hfr x (List.mem_cons_of_mem _ hx)
    rw [sendLoop]
    cases hatt : attempt i r with
    | none =>
      obtain ⟨h1, h2⟩ := ih (i + 1) (sendStep mph onDisk att attempt i r st) hnd'
        (by rw [sendStep_failed_none mph onDisk att attempt i r st hatt]; exact hfr')
      refine ⟨?_, ?_⟩
      · rw [h1, sendStep_sent_none mph onDisk att attempt i r st hatt]
        simp [sentOf, hatt, List.append_assoc]
      · rw [h2, sendStep_failed_none mph onDisk att attempt i r st hatt]
        simp [failedOf, hatt]
    | some e =>
      have hstep : (sendStep mph onDisk att attempt i r st).failed =
          st.failed ++ [(r, e)] := by
        rw [sendStep_failed_some mph onDisk att attempt i r st e hatt,
          dictInsert_of_not_mem]
        exact hfr r (List.mem_cons_self r rs)
      obtain ⟨h1, h2⟩ := ih (i + 1) (sendStep mph onDisk att attempt i r st) hnd'
        (by
          rw [hstep]
          intro x hx
          simp only [List.map_append, List.mem_append, List.map_cons,
            List.map_nil, List.mem_singleton, not_or]
          exact ⟨hfr' x hx, fun hxr => hrn (hxr ▸ hx)⟩)
      refine ⟨?_, ?_⟩
      · rw [h1, sendStep_sent_some mph onDisk att attempt i r st e hatt]
        simp [sentOf, hatt]
      · rw [h2, hstep]
        simp [failedOf, hatt, List.append_assoc]

lemma sentOf_length_add (attempt : Nat → String → Option String) :
    ∀ (rs : List String) (i : Nat),
      (sentOf attempt rs i).length + (failedOf attempt rs i).length =
        rs.length := by
  intro rs
  induction rs with
  | nil => intro i; simp [sentOf, failedOf]
  | cons r rs ih =>
    intro i
    cases hatt : attempt i r <;>
      simp only [sentOf, failedOf, hatt, List.length_cons] <;>
      have := ih (i + 1) <;> omega

lemma mem_sentOf (attempt : Nat → String → Option String) :
    ∀ (rs : List String) (i : Nat) (r : String),
      r ∈ sentOf attempt rs i → r ∈ rs := by
  intro rs
  induction rs with
  | nil => intro i r h; simp [sentOf] at h
  | cons a rs ih =>
    intro i r h
    cases hatt : attempt i a <;> rw [sentOf] at h <;> simp only [hatt] at h
    · rcases List.mem_cons.mp h with h | h
      · exact h ▸ List.mem_cons_self a rs
      · exact List.mem_cons_of_mem _ (ih (i + 1) r h)
    · exact List.mem_cons_of_mem _ (ih (i + 1) r h)

lemma mem_failedOf (attempt : Nat → String → Option String) :
    ∀ (rs : List String) (i : Nat) (r : String),
      r ∈ (failedOf attempt rs i).map Prod.fst → r ∈ rs := by
  intro rs
  induction rs with
  | nil => intro i r h; simp [failedOf] at h
  | cons a rs ih =>
    intro i r h
    cases hatt : attempt i a <;> rw [failedOf] at h <;> simp only [hatt] at h
    · exact List.mem_cons_of_mem _ (ih (i + 1) r h)
    · rw [List.map_cons] at h
      rcases List.mem_cons.mp h with h | h
      · exact h ▸ List.mem_cons_self a rs
      · exact List.mem_cons_of_mem _ (ih (i + 1) r h)

lemma sentOf_cover (attempt : Nat → String → Option String) :
    ∀ (rs : List String) (i : Nat) (r : String), r ∈ rs →
      r ∈ sentOf attempt rs i ∨ r ∈ (failedOf attempt rs i).map Prod.fst := by
  intro rs
  induction rs with
  | nil => intro i r h; simp at h
  | cons a rs ih =>
    intro i r h
    rcases List.mem_cons.mp h with h | h
    · subst h
      cases hatt : attempt i r
      · left; rw [sentOf]; simp [hatt]
      · right; rw [failedOf]; simp [hatt]
    · rcases ih (i + 1) r h with h' | h'
      · cases hatt : attempt i a
        · left; rw [sentOf]; simp only [hatt]
          exact List.mem_cons_of_mem _ h'
        · left; rw [sentOf]; simp only [hatt]; exact h'
      · cases hatt : attempt i a
        · right; rw [failedOf]; simp only [hatt]; exact h'
        · right; rw [failedOf]; simp only [hatt, List.map_cons]
          exact List.mem_cons_of_mem _ h'

lemma sentOf_disjoint (attempt : Nat → String → Option String) :
    ∀ (rs : List String) (i : Nat) (r : String), rs.Nodup →
      r ∈ sentOf attempt rs i →
      r ∉ (failedOf attempt rs i).map Prod.fst := by
  intro rs
  induction rs with
  | nil => intro i r _ h; simp [sentOf] at h
  | cons a rs ih =>
    intro i r hnd h
    rw [List.nodup_cons] at hnd
    obtain ⟨han, hnd'⟩ := hnd
    cases hatt : attempt i a <;> rw [sentOf] at h <;> simp only [hatt] at h <;>
      rw [failedOf] <;> simp only [hatt]
    · rcases List.mem_cons.mp h with h | h
      · subst h
        intro hc
        exact han (mem_failedOf attempt rs (i + 1) r hc)
      · exact ih (i + 1) r hnd' h
    · rw [List.map_cons]
      intro hc
      rcases List.mem_cons.mp hc with hc | hc
      · exact han ((show r = a from hc) ▸ mem_sentOf attempt rs (i + 1) r h)
      · exact ih (i + 1) r hnd' h hc

/-! ## C1 — delivery buckets -/

/-- C1 counterexample: with a duplicated recipient list `["a", "a"]` and
both transmissions succeeding, `sent` holds two entries while the list has
one distinct address, so `len(sent) + len(failed)` is 2, not the number of
distinct addresses. -/
theorem C1_counterexample :
    (send (fun _ => false) (fun _ => none) (fun _ => "") [] [] none
        (fun _ _ => none) ["a", "a"]).sent.length +
      (send (fun _ => false) (fun _ => none) (fun _ => "") [] [] none
        (fun _ _ => none) ["a", "a"]).failed.length = 2 ∧
    (["a", "a"] : List String).dedup.length = 1 :=
  ⟨by decide, by decide⟩

/-- C1 amended: for every recipient list without duplicate addresses
(given a successful connection), every requested recipient lands in exactly
one of the two buckets, the buckets are disjoint, and
`len(sent) + len(failed)` equals the number of requested addresses. -/
theorem C1_delivery_buckets (onDisk : String → Bool)
    (mime : String → Option String) (cidGen : Nat → String)
    (blocks : List Block) (attachPaths : List String) (mph : Option Nat)
    (attempt : Nat → String → Option String) (R : List String)
    (hR : R.Nodup) :
    bucketsOk (send onDisk mime cidGen blocks attachPaths mph attempt R) R := by
  obtain ⟨h1, h2⟩ := sendLoop_char mph onDisk attachPaths attempt R 0
    ⟨[], [], 0, 0, (buildBody onDisk mime cidGen blocks).reads⟩ hR
    (by intro r _ h; simp at h)
  have hs : (send onDisk mime cidGen blocks attachPaths mph attempt R).sent =
      sentOf attempt R 0 := by
    rw [send]; rw [h1]; simp
  have hf : (send onDisk mime cidGen blocks attachPaths mph attempt R).failed =
      failedOf attempt R 0 := by
    rw [send]; rw [h2]; simp
  refine ⟨?_, ?_, ?_⟩
  · rw [hs, hf]; exact sentOf_length_add attempt R 0
  · intro r hr
    rw [hs, hf]
    rcases sentOf_cover attempt R 0 r hr with h | h
    · exact Or.inl ⟨h, sentOf_disjoint attempt R 0 r hR h⟩
    · refine Or.inr ⟨fun hc => ?_, h⟩
      exact sentOf_disjoint attempt R 0 r hR hc h
  · intro r hr
    rw [hs] at hr
    rw [hf]
    exact sentOf_disjoint attempt R 0 r hR hr

/-- Witness for C1: the amended theorem at the duplicate-free list
`["a", "b"]` where `"a"` succeeds and `"b"` fails. -/
theorem C1_witness :
    (["a", "b"] : List String).Nodup ∧
    bucketsOk
      (send (fun _ => false) (fun _ => none) (fun _ => "") [] [] none
        (fun _ r => if r = "a" then none else some "boom") ["a", "b"])
      ["a", "b"] :=
  ⟨by decide,
    C1_delivery_buckets (fun _ => false) (fun _ => none) (fun _ => "") [] []
      none (fun _ r => if r = "a" then none else some "boom") ["a", "b"]
      (by decide)⟩

/-! ## C9 — at most one rate-limit pause -/

lemma pauseInd_zero (mph : Option Nat) : pauseInd mph 0 = 0 := by
  cases mph with
  | none => rfl
  | some m => simp only [pauseInd]; split <;> omega

lemma pauseInd_le_one (mph : Option Nat) (c : Nat) : pauseInd mph c ≤ 1 := by
  cases mph with
  | none => simp [pauseInd]
  | some m => simp only [pauseInd]; split <;> omega

/-- Along the delivery loop the pause count always equals the indicator
"a truthy threshold has been reached by the success counter". -/
lemma sendLoop_pauses (mph : Option Nat) (onDisk : String → Bool)
    (att : List String) (attempt : Nat → String → Option String) :
    ∀ (rs : List String) (i : Nat) (st : SendAcc),
      st.pauses = pauseInd mph st.emailsSent →
      (sendLoop mph onDisk att attempt rs i st).pauses =
        pauseInd mph (sendLoop mph onDisk att attempt rs i st).emailsSent := by
  intro rs
  induction rs with
  | nil => intro i st h; simpa [sendLoop]
  | cons r rs ih =>
    intro i st h
    rw [sendLoop]
    apply ih
    cases hatt : attempt i r with
    | some e => simpa [sendStep, hatt]
    | none =>
      simp only [sendStep, hatt]
      cases mph with
      | none => simpa [pauseInd]
      | some m =>
        simp only [pauseInd] at h ⊢
        split_ifs at h ⊢ <;> omega

/-- C9: in any single `send` call the rate-limit pause executes at most
once over the whole batch: the success counter is never reset, and the
pause fires only when the counter first equals the threshold. -/
theorem C9_at_most_one_pause (onDisk : String → Bool)
    (mime : String → Option String) (cidGen : Nat → String)
    (blocks : List Block) (attachPaths : List String) (mph : Option Nat)
    (attempt : Nat → String → Option String) (R : List String) :
    (send onDisk mime cidGen blocks attachPaths mph attempt R).pauses ≤ 1 := by
  rw [send]
  rw [sendLoop_pauses mph onDisk attachPaths attempt R 0 _
    (by simp [pauseInd_zero])]
  exact pauseInd_le_one mph _

/-! ## C8 — what is re-read per recipient -/

/-- The delivery loop opens exactly the on-disk attachment paths once per
recipient iteration, appended to whatever was already read. -/
lemma sendLoop_reads (mph : Option Nat) (onDisk : String → Bool)
    (att : List String) (attempt : Nat → String → Option String) :
    ∀ (rs : List String) (i : Nat) (st : SendAcc),
      (sendLoop mph onDisk att attempt rs i st).reads =
        st.reads ++ (rs.map (fun _ => att.filter onDisk)).flatten := by
  intro rs
  induction rs with
  | nil => intro i st; simp [sendLoop]
  | cons r rs ih =>
    intro i st
    rw [sendLoop, ih]
    have hstep : (sendStep mph onDisk att attempt i r st).reads =
        st.reads ++ att.filter onDisk := by
      cases hatt : attempt i r <;> simp [sendStep, hatt]
    rw [hstep]
    simp [List.append_assoc]

/-- C8 counterexample: one inline image, one attachment, two recipients,
all files on disk: the whole `send` opens the image file once (during the
single `_build_body` call before the loop) and the attachment twice (once
per recipient), so inline images are not re-read on every recipient
iteration. -/
theorem C8_counterexample :
    (send (fun _ => true) (fun _ => some "image/png") (fun _ => "cid0")
        [Block.image "img.png" none none none] ["a.pdf"] none
        (fun _ _ => none) ["r1", "r2"]).reads = ["img.png", "a.pdf", "a.pdf"] ∧
    (["img.png", "a.pdf", "a.pdf"] : List String).count "img.png" = 1 ∧
    (["r1", "r2"] : List String).length = 2 :=
  ⟨by decide, by decide, by decide⟩

/-- C8 amended: the file-open trace of a whole `send` call is the
`_build_body` trace (the inline image files, opened once, before the loop)
followed by one copy of the on-disk attachment list per recipient
iteration: attachments are re-read per recipient, inline images are read
once and shared across recipients. -/
theorem C8_reads_per_recipient (onDisk : String → Bool)
    (mime : String → Option String) (cidGen : Nat → String)
    (blocks : List Block) (attachPaths : List String) (mph : Option Nat)
    (attempt : Nat → String → Option String) (R : List String) :
    (send onDisk mime cidGen blocks attachPaths mph attempt R).reads =
      (buildBody onDisk mime cidGen blocks).reads ++
        (R.map (fun _ => attachPaths.filter onDisk)).flatten := by
  rw [send]
  rw [sendLoop_reads]

/-! ## String helper lemmas -/

lemma strFoldl_append (l : List String) :
    ∀ a : String, l.foldl (· ++ ·) a = a ++ l.foldl (· ++ ·) "" := by
  induction l with
  | nil => intro a; simp [String.append_empty]
  | cons x xs ih =>
    intro a
    simp only [List.foldl_cons]
    rw [ih (a ++ x), ih ("" ++ x), String.empty_append, String.append_assoc]

lemma strJoin_append (l1 l2 : List String) :
    String.join (l1 ++ l2) = String.join l1 ++ String.join l2 := by
  show (l1 ++ l2).foldl (· ++ ·) "" = _
  rw [List.foldl_append]
  exact strFoldl_append l2 _

lemma addClause_eq (c : String) (v : Option String) (f : String → String) :
    addClause c v f = c ++ String.join (clauseOf v f) := by
  cases v with
  | none => simp [addClause, clauseOf, String.join, String.append_empty]
  | some s =>
    by_cases h : s = ""
    · simp [addClause, clauseOf, h, String.join, String.append_empty]
    · simp [addClause, clauseOf, h, String.join, String.empty_append]

/-! ## C4 — Query Builder -/

/-- C4: for all filter arguments, the search expression built by
`EzReader.fetch_messages` is the parenthesized status followed by the
clauses of the present (truthy) filters, exactly one clause per present
filter, in the fixed order FROM, SUBJECT, TEXT, BODY, ON, SINCE, BEFORE;
in particular the UNSEEN/sender/since example yields exactly
`(UNSEEN FROM "a@b.com" SINCE 01-Jan-2024)` and the defaults yield
`(ALL)`. -/
theorem C4_query_builder :
    (∀ (status : String) (sender subject text body date since before : Option String),
      buildCriteria status sender subject text body date since before =
        "(" ++ status ++
          String.join (specClauses sender subject text body date since before) ++
          ")") ∧
    buildCriteria "UNSEEN" (some "a@b.com") none none none none
      (some "01-Jan-2024") none = "(UNSEEN FROM \"a@b.com\" SINCE 01-Jan-2024)" ∧
    buildCriteria "ALL" none none none none none none none = "(ALL)" := by
  refine ⟨?_, by decide, by decide⟩
  intro status sender subject text body date since before
  simp only [buildCriteria, specClauses, addClause_eq, strJoin_append,
    String.append_assoc]

/-! ## C7 — invalid auth type and the order of network calls -/

/-- C7 counterexample: with an invalid auth type, `EzReader.connect` does
raise a wrapped error, but its trace of client calls already contains the
`IMAP4_SSL` constructor — a network call performed before the auth-type
check, so the failure is not "before any network call". -/
theorem C7_counterexample :
    (connect none "token" (.ok ()) (.ok ()) (.ok ())).trace = ["IMAP4_SSL"] ∧
    (connect none "token" (.ok ()) (.ok ()) (.ok ())).err =
      some ("Failed to connect or authenticate to IMAP server: " ++
        "Invalid authentication type. Use 'password' or 'oauth2'.") ∧
    (["IMAP4_SSL"] : List String) ≠ [] :=
  ⟨by decide, by decide, by decide⟩

/-- C7 amended: if the configured auth type is neither `"password"` nor
`"oauth2"`, `connect` always raises an error and never attempts
`login`/`authenticate`, but the `IMAP4_SSL` constructor — a network call —
is always attempted first: the trace is exactly `["IMAP4_SSL"]`. -/
theorem C7_invalid_auth_type (mail0 : Option Unit) (authType : String)
    (ssl login auth : Except String Unit)
    (h1 : authType ≠ "password") (h2 : authType ≠ "oauth2") :
    (connect mail0 authType ssl login auth).err.isSome = true ∧
    (connect mail0 authType ssl login auth).trace = ["IMAP4_SSL"] := by
  cases ssl with
  | error e => exact ⟨rfl, rfl⟩
  | ok u => simp [connect, h1, h2]

/-- Witness for C7: the amended theorem applied to the concrete invalid
auth type `"token"`. -/
theorem C7_witness :
    (("token" : String) ≠ "password" ∧ ("token" : String) ≠ "oauth2") ∧
    ((connect none "token" (.ok ()) (.ok ()) (.ok ())).err.isSome = true ∧
      (connect none "token" (.ok ()) (.ok ()) (.ok ())).trace = ["IMAP4_SSL"]) :=
  ⟨⟨by decide, by decide⟩,
    C7_invalid_auth_type none "token" (.ok ()) (.ok ()) (.ok ())
      (by decide) (by decide)⟩

/-! ## C3 — session state after a failed connect -/

/-- C3 counterexample: an authentication failure inside `connect` happens
after `self.mail` was assigned, so the session is not left in the
Disconnected state: `self.mail` is set, and a subsequent `fetch_messages`
does not fail fast with the not-connected error — it runs the protocol
operations and here even succeeds. -/
theorem C3_counterexample :
    (connect none "password" (.ok ()) (.error "AUTHENTICATIONFAILED") (.ok ())).mail
      = some () ∧
    (connect none "password" (.ok ()) (.error "AUTHENTICATIONFAILED") (.ok ())).err
      = some "Failed to connect or authenticate to IMAP server: AUTHENTICATIONFAILED" ∧
    fetchMessages
      (connect none "password" (.ok ()) (.error "AUTHENTICATIONFAILED") (.ok ())).mail
      (.ok ()) (fun _ => .ok ("OK", [])) (fun _ => none)
      none "ALL" none none none none none none none = .ok [] :=
  ⟨by decide, by decide, by decide⟩

/-- C3 amended: only a failure of the `IMAP4_SSL` constructor itself leaves
the session disconnected (for a first connect, `self.mail` stays `None`),
in which case `fetch_messages` and `list_mailboxes` fail fast with the
descriptive not-connected error; a failure after the constructor (login,
XOAUTH2, invalid auth type) leaves `self.mail` set. -/
theorem C3_ssl_failure_disconnected (e authType : String)
    (login auth : Except String Unit) (selectRes : Except String Unit)
    (searchRes : String → Except String (String × List Nat))
    (fetchRaw : Nat → Option RawMsg)
    (listRes : Except String (String × List String))
    (limit : Option Int) (status : String)
    (sd sj tx bd dt si bf : Option String) :
    (connect none authType (.error e) login auth).mail = none ∧
    (connect none authType (.error e) login auth).err =
      some ("Failed to connect or authenticate to IMAP server: " ++ e) ∧
    fetchMessages (connect none authType (.error e) login auth).mail
      selectRes searchRes fetchRaw limit status sd sj tx bd dt si bf =
      .error "Not connected to any IMAP server." ∧
    listMailboxes (connect none authType (.error e) login auth).mail listRes =
      .error "Not connected to any IMAP server." :=
  ⟨rfl, rfl, rfl, rfl⟩

/-! ## C5 — the fetch limit -/

/-- C5 counterexample: `limit=0` is falsy in Python, so the truncation is
skipped entirely and `fetch_messages(limit=0)` returns every matching
message — here 2, which is more than 0. -/
theorem C5_counterexample :
    fetchMessages (some ()) (.ok ()) (fun _ => .ok ("OK", [1, 2]))
      (fun _ => some ⟨"s", "t", []⟩) (some 0) "ALL"
      none none none none none none none =
      .ok [⟨"s", "t", "", []⟩, ⟨"s", "t", "", []⟩] ∧
    ¬((2 : Nat) ≤ 0) :=
  ⟨by decide, by decide⟩

/-- C5 amended: for every integer `N ≥ 1` and every mailbox state,
`fetch_messages(limit=N)` returns at most `N` messages (for `N = 0` the
truthiness check skips truncation, and negative `N` slices from the end
instead). -/
theorem C5_limit_truncates (mail : Option Unit) (selectRes : Except String Unit)
    (searchRes : String → Except String (String × List Nat))
    (fetchRaw : Nat → Option RawMsg) (N : Int) (status : String)
    (sd sj tx bd dt si bf : Option String) (es : List EzMailRec)
    (hN : 1 ≤ N)
    (h : fetchMessages mail selectRes searchRes fetchRaw (some N) status
      sd sj tx bd dt si bf = .ok es) :
    es.length ≤ N.toNat := by
  cases mail with
  | none => simp [fetchMessages] at h
  | some u =>
    simp only [fetchMessages] at h
    cases selectRes with
    | error e => simp at h
    | ok v =>
      cases hsr : searchRes (buildCriteria status sd sj tx bd dt si bf) with
      | error e => rw [hsr] at h; simp at h
      | ok p =>
        obtain ⟨sc, ids⟩ := p
        rw [hsr] at h
        by_cases hsc : sc = "OK"
        · simp only [hsc, ne_eq, not_true_eq_false, if_false, Except.ok.injEq] at h
          subst h
          calc ((applyLimit ids (some N)).filterMap
                  (fun i => (fetchRaw i).map decomposeMsg)).length
              ≤ (applyLimit ids (some N)).length := List.length_filterMap_le _ _
            _ ≤ N.toNat := by
                simp only [applyLimit, pySliceTo]
                rw [if_neg (by omega : ¬N = 0), if_pos (by omega : (0 : Int) ≤ N)]
                exact List.length_take_le _ _
        · simp [hsc] at h

/-! ## C2 — which text/plain part becomes the body -/

lemma attachStep_body (st : DecompState) (p : Part) :
    (attachStep st p).body = st.body := by
  cases hf : p.filename <;> simp [attachStep, hf]

/-- The walk loop's final `body_content` is the last accepted candidate,
or the initial value when no part is accepted: each accepted `text/plain`
part overwrites the previous body. -/
lemma foldl_processPart_body :
    ∀ (parts : List Part) (st : DecompState),
      (parts.foldl processPart st).body =
        (plainBodyCandidates parts).getLastD st.body := by
  intro parts
  induction parts with
  | nil => intro st; simp [plainBodyCandidates]
  | cons p ps ih =>
    intro st
    rw [List.foldl_cons, ih]
    by_cases hm : p.isMultipart
    · have hcand : plainBodyCandidates (p :: ps) = plainBodyCandidates ps := by
        simp [plainBodyCandidates, hm]
      rw [hcand]
      congr 1
      simp [processPart, hm]
    · by_cases hc : p.contentType = "text/plain" ∧
          strContains p.contentDisposition "attachment" = false
      · cases hp : p.payload with
        | none =>
          have hcand : plainBodyCandidates (p :: ps) = plainBodyCandidates ps := by
            simp [plainBodyCandidates, hm, hc, hp]
          rw [hcand]
          congr 1
          simp [processPart, hm, hc.1, hc.2, hp]
        | some s =>
          have hcand : plainBodyCandidates (p :: ps) =
              s :: plainBodyCandidates ps := by
            simp [plainBodyCandidates, hm, hc, hp]
          have hbody : (processPart st p).body = s := by
            simp [processPart, hm, hc.1, hc.2, hp, attachStep_body]
          rw [hcand, List.getLastD_cons, hbody]
      · have hcand : plainBodyCandidates (p :: ps) = plainBodyCandidates ps := by
          simp [plainBodyCandidates, hm, hc]
        rw [hcand]
        congr 1
        simp [processPart, hm, hc, attachStep_body]

/-- C2 counterexample: a message with two acceptable `text/plain` leaf
parts, `"First"` then `"Second"`.  The claim says the first becomes the
body; the code's repeated assignment makes the body `"Second"`. -/
theorem C2_counterexample :
    (decomposeMsg ⟨"alice@example.com", "Hi",
      [⟨false, "text/plain", "", none, some "First"⟩,
       ⟨false, "text/plain", "", none, some "Second"⟩]⟩).body = "Second" ∧
    plainBodyCandidates
      [⟨false, "text/plain", "", none, some "First"⟩,
       ⟨false, "text/plain", "", none, some "Second"⟩] = ["First", "Second"] ∧
    ("Second" : String) ≠ "First" :=
  ⟨by decide, by decide, by decide⟩

/-- C2 amended: for every raw fetched message, the body of the decomposed
message is the (trimmed) decoded payload of the **last** leaf part in
document order whose content type is `text/plain`, whose disposition does
not contain `attachment`, and whose payload decodes — each later such part
overwrites the earlier ones; the empty string is used when no part
qualifies. -/
theorem C2_last_plain_part_wins (m : RawMsg) :
    (decomposeMsg m).body =
      pyStrip ((plainBodyCandidates m.parts).getLastD "") := by
  simp only [decomposeMsg]
  rw [foldl_processPart_body m.parts ⟨"", []⟩]

/-! ## C10 — body role and attachment role are not exclusive -/

/-- C10: a leaf part that is `text/plain`, not disposed as an attachment,
but declares a filename is used both as the message body and collected as
an attachment record of the same `FetchedMessage`. -/
theorem C10_body_and_attachment (senderS subjS disp fn s : String)
    (h : strContains disp "attachment" = false) :
    decomposeMsg ⟨senderS, subjS,
        [⟨false, "text/plain", disp, some fn, some s⟩]⟩ =
      ⟨senderS, subjS, pyStrip s, [⟨fn, "text/plain", some s⟩]⟩ := by
  simp [decomposeMsg, processPart, attachStep, h]

/-- Witness for C10: a concrete `text/plain` part with an `inline`
disposition and the filename `report.txt`. -/
theorem C10_witness :
    strContains "inline" "attachment" = false ∧
    decomposeMsg ⟨"alice@example.com", "Report",
        [⟨false, "text/plain", "inline", some "report.txt", some "hello"⟩]⟩ =
      ⟨"alice@example.com", "Report", pyStrip "hello",
        [⟨"report.txt", "text/plain", some "hello"⟩]⟩ :=
  ⟨by decide,
    C10_body_and_attachment "alice@example.com" "Report" "inline"
      "report.txt" "hello" (by decide)⟩

/-! ## C6 — the plain-text derivation -/

lemma stripTagsGo_no_lt :
    ∀ (l : List Char), (∀ c ∈ l, c ≠ '<') → stripTagsGo l [] = l := by
  intro l
  induction l with
  | nil => intro _; rfl
  | cons c cs ih =>
    intro h
    have hc := h c (List.mem_cons_self c cs)
    simp only [stripTagsGo, reduceIte, hc, ite_false, if_neg hc]
    rw [ih (fun x hx => h x (List.mem_cons_of_mem _ hx))]

lemma stripTags_no_lt (l : List Char) (h : ∀ c ∈ l, c ≠ '<') :
    stripTags l = l :=
  stripTagsGo_no_lt l h

/-- On a list whose whitespace characters are all plain spaces and never
adjacent, the whitespace collapse is the identity. -/
lemma collapseWs_eq_self :
    ∀ l : List Char,
      (∀ c ∈ l, isSpaceChar c → c = ' ') →
      noAdjacentWs l = true →
      collapseWs l = l := by
  intro l
  induction l with
  | nil => intro _ _; rfl
  | cons c cs ih =>
    intro hsp hch
    cases cs with
    | nil =>
      by_cases hc : isSpaceChar c
      · have hce : c = ' ' := hsp c (List.mem_cons_self _ _) hc
        simp [collapseWs, hc, hce]
      · simp [collapseWs, hc]
    | cons d ds =>
      rw [noAdjacentWs, Bool.and_eq_true] at hch
      obtain ⟨hcd, hch2⟩ := hch
      have hsp' : ∀ x ∈ d :: ds, isSpaceChar x → x = ' ' :=
        fun x hx => hsp x (List.mem_cons_of_mem _ hx)
      by_cases hc : isSpaceChar c
      · have hd : ¬ isSpaceChar d = true := by
          intro hd
          rw [hc, hd] at hcd
          simp at hcd
        have hce : c = ' ' := hsp c (List.mem_cons_self _ _) hc
        simp only [collapseWs, if_pos hc, if_neg hd]
        rw [ih hsp' hch2, hce]
      · simp only [collapseWs, if_neg hc]
        rw [ih hsp' hch2]

/-- A list containing a non-whitespace character does not trim to the
empty list. -/
lemma stripEnds_ne_nil (l : List Char) (h : ∃ c ∈ l, ¬ isSpaceChar c) :
    stripEnds l ≠ [] := by
  intro he
  obtain ⟨c, hc, hcs⟩ := h
  unfold stripEnds at he
  rw [List.reverse_eq_nil_iff, List.dropWhile_eq_nil_iff] at he
  have h2 : ∀ a ∈ l.dropWhile isSpaceChar, isSpaceChar a :=
    fun a ha => he a (List.mem_reverse.mpr ha)
  have h3 : ∀ a ∈ l, isSpaceChar a := by
    intro a ha
    rcases List.mem_append.mp
        ((List.takeWhile_append_dropWhile (p := isSpaceChar) (l := l)) ▸ ha)
      with h' | h'
    · exact List.mem_takeWhile_imp h'
    · exact h2 a h'
  exact hcs (h3 c hc)

/-- C6 counterexample: the body `"a  b"` contains no markup, yet the
derived plain text collapses the interior double space, so it differs from
the trimmed original. -/
theorem C6_counterexample :
    derivePlainText "a  b" = "a b" ∧ pyStrip "a  b" = "a  b" ∧
    ("a b" : String) ≠ "a  b" :=
  ⟨by decide, by decide, by decide⟩

/-- C6 amended: the derivation removes `<...>` tags, collapses whitespace
runs and trims, substituting the placeholder when empty; consequently, for
every HTML body containing no `<` character, whose whitespace characters
are all plain single spaces with no two adjacent, and containing at least
one non-whitespace character, the derived plain text equals the trimmed
original; and a markup-only body such as `"<p></p>"` yields the
placeholder string. -/
theorem C6_plain_text_derivation (html : String)
    (h1 : ∀ c ∈ html.data, c ≠ '<')
    (h2 : ∀ c ∈ html.data, isSpaceChar c → c = ' ')
    (h3 : noAdjacentWs html.data = true)
    (h4 : ∃ c ∈ html.data, ¬ isSpaceChar c) :
    derivePlainText html = pyStrip html ∧
    derivePlainText "<p></p>" = "Content not available." := by
  constructor
  · simp only [derivePlainText]
    rw [stripTags_no_lt html.data h1, collapseWs_eq_self html.data h2 h3,
      if_neg (stripEnds_ne_nil html.data h4)]
    rfl
  · decide

/-- Witness for C6: the amended theorem at the markup-free body `"a b"`. -/
theorem C6_witness :
    ((∀ c ∈ ("a b" : String).data, c ≠ '<') ∧
      (∀ c ∈ ("a b" : String).data, isSpaceChar c → c = ' ') ∧
      noAdjacentWs ("a b" : String).data = true ∧
      (∃ c ∈ ("a b" : String).data, ¬ isSpaceChar c)) ∧
    (derivePlainText "a b" = pyStrip "a b" ∧
      derivePlainText "<p></p>" = "Content not available.") :=
  ⟨⟨by decide, by decide, by decide, by decide⟩,
    C6_plain_text_derivation "a b" (by decide) (by decide) (by decide)
      (by decide)⟩

/-- Witness for C5: the amended theorem at `N = 2` with three matching
ids, of which only two are returned. -/
theorem C5_witness :
    (1 : Int) ≤ 2 ∧
    ([⟨"s", "t", "", []⟩, ⟨"s", "t", "", []⟩] : List EzMailRec).length ≤
      (2 : Int).toNat :=
  ⟨by decide,
    C5_limit_truncates (some ()) (.ok ()) (fun _ => .ok ("OK", [1, 2, 3]))
      (fun _ => some ⟨"s", "t", []⟩) 2 "ALL" none none none none none none none
      [⟨"s", "t", "", []⟩, ⟨"s", "t", "", []⟩] (by decide) (by decide)⟩

end Ezmail
